import Mathlib

/-!
Verification of the Tenable-Report ingestion/classification pipeline.

Each definition is a shallow embedding of the corresponding Python function
in the repository (file and symbol named in its doc comment).  Python's
machine-level details are modelled as follows: `dict` values become
association lists or typed structures, `None`/heterogeneous values become
the `PyVal` inductive, exceptions become `Except PyErr`, the external
`re`/`datetime` libraries are either implemented literally (for the fixed
pattern lists appearing in the source) or passed in as function parameters,
and wall-clock times are rationals (seconds).
-/

namespace TenableReport

/-! ## Python string primitives -/

/-- `needle.isPrefixOf hay` spelled out on character lists. -/
def strStarts : List Char → List Char → Bool
  | _, [] => true
  | [], _ :: _ => false
  | c :: cs, d :: ds => c == d && strStarts cs ds

/-- Substring containment on character lists (`needle in hay` for Python `str`). -/
def listHasSub (needle : List Char) : List Char → Bool
  | [] => strStarts [] needle
  | c :: t => strStarts (c :: t) needle || listHasSub needle t

/-- Python's `needle in hay` for strings. -/
def pyIn (needle hay : String) : Bool :=
  listHasSub needle.toList hay.toList

/-- Python's `str.lower` (ASCII fragment), built on character lists so that
it evaluates by kernel reduction. -/
def pyLower (s : String) : String :=
  String.mk (s.toList.map Char.toLower)

/-- Python's `str.capitalize`: first character upper-cased, the rest lower-cased. -/
def pyCapitalizeStr (s : String) : String :=
  match s.toList with
  | [] => ""
  | c :: rest => String.mk (c.toUpper :: rest.map Char.toLower)

/-- Fuel-driven worker for `pyReplace`; the fuel is the input length, enough
for the non-overlapping left-to-right scan `str.replace` performs. -/
def pyReplaceAux (needle repl : List Char) : Nat → List Char → List Char
  | 0, l => l
  | _ + 1, [] => []
  | fuel + 1, c :: t =>
      if strStarts (c :: t) needle then
        repl ++ pyReplaceAux needle repl fuel (t.drop (needle.length - 1))
      else
        c :: pyReplaceAux needle repl fuel t

/-- Python's `s.replace(needle, repl)` for a non-empty needle. -/
def pyReplace (s needle repl : String) : String :=
  if needle.toList.isEmpty then s
  else String.mk (pyReplaceAux needle.toList repl.toList s.toList.length s.toList)

/-- Python's `\s` character class (ASCII fragment, which covers the OS strings
and plugin texts this repository handles). -/
def pyWs (c : Char) : Bool :=
  c == ' ' || c == '\t' || c == '\n' || c == '\r' || c == Char.ofNat 11 || c == Char.ofNat 12

/-- Python slicing `s[:n]`. -/
def pyTrunc (n : Nat) (s : String) : String :=
  String.mk (s.toList.take n)

/-! ## Python values

`PyVal` models the JSON-shaped values flowing through the pipeline
(vendor-API records are parsed JSON).  `PyErr` models the exceptions the
embedded code can raise. -/

inductive PyVal where
  | none : PyVal
  | bool : Bool → PyVal
  | int : Int → PyVal
  | str : String → PyVal
  | list : List PyVal → PyVal
  | dict : List (String × PyVal) → PyVal
deriving Repr

inductive PyErr where
  | typeError : PyErr
  | attributeError : PyErr
deriving DecidableEq, Repr

/-- Python truthiness. -/
def PyVal.truthy : PyVal → Bool
  | .none => false
  | .bool b => b
  | .int n => n != 0
  | .str s => !(s == "")
  | .list xs => !xs.isEmpty
  | .dict es => !es.isEmpty

/-- `d.get(k, dflt)` for a dict represented as an association list
(keys are unique in a Python dict; the first binding is the one). -/
def pyGet (d : List (String × PyVal)) (k : String) (dflt : PyVal) : PyVal :=
  match d.find? (fun e => e.1 == k) with
  | some e => e.2
  | Option.none => dflt

/-- `v.get(k, dflt)` on an arbitrary value: raises `AttributeError` unless
`v` is a dict. -/
def pyValGet (v : PyVal) (k : String) (dflt : PyVal) : Except PyErr PyVal :=
  match v with
  | .dict d => .ok (pyGet d k dflt)
  | _ => .error .attributeError

/-- Python `str(v)` for the atoms that reach it in this code base; the
`repr`-style rendering of containers is not relied upon by any claim. -/
def pyStr : PyVal → String
  | .none => "None"
  | .bool true => "True"
  | .bool false => "False"
  | .int n => toString n
  | .str s => s
  | .list _ => "<list>"
  | .dict _ => "<dict>"

/-- `v.capitalize()`: a method of `str`, so any non-string receiver raises
`AttributeError`. -/
def pyCapitalize : PyVal → Except PyErr String
  | .str s => .ok (pyCapitalizeStr s)
  | _ => .error .attributeError

/-! ## Normalizer — `src/processors/normalizer.py`

`VulnerabilityNormalizer._parse_date` and `VulnerabilityNormalizer.normalize`.
The external `datetime.fromisoformat`/`strftime` pair is passed in as
`iso : String → Option String`: `some formatted` on parse success,
`Option.none` when `fromisoformat` raises `ValueError`. -/

/-- `VulnerabilityNormalizer._parse_date`: falsy input yields `None`; a
string is reformatted when it parses and returned unmodified otherwise; a
truthy non-string raises `AttributeError` at `.replace`, which the source
catches and answers with the original value. -/
def parseDate (iso : String → Option String) (v : PyVal) : PyVal :=
  if v.truthy = false then .none
  else
    match v with
    | .str s =>
        match iso (pyReplace s "Z" "+00:00") with
        | some formatted => .str formatted
        | Option.none => .str s
    | other => other

/-- `raw_vuln.get(k) or {}` — the sub-object is kept when truthy and replaced
by an empty dict otherwise. -/
def orEmptyDict (v : PyVal) : PyVal :=
  if v.truthy then v else .dict []

/-- `VulnerabilityNormalizer.normalize`.  Output is the dict literal of the
source, in source order.  Field reads on the `asset`/`plugin` sub-objects
raise `AttributeError` when those are truthy non-dicts, exactly as
`.get` does in Python; `severity.capitalize()` raises on a non-string
severity value. -/
def normalize (iso : String → Option String) (raw : List (String × PyVal)) :
    Except PyErr (List (String × PyVal)) :=
  if (PyVal.dict raw).truthy = false then .ok []
  else do
    let assetV := orEmptyDict (pyGet raw "asset" .none)
    let pluginV := orEmptyDict (pyGet raw "plugin" .none)
    let uuid ← pyValGet assetV "uuid" .none
    let hostnameRaw ← pyValGet assetV "hostname" .none
    let hostname := if hostnameRaw.truthy then hostnameRaw else .str "unknown"
    let ipv4 ← pyValGet assetV "ipv4" .none
    let os ← pyValGet assetV "operating_system" .none
    let pid ← pyValGet pluginV "id" (.str "")
    let pname ← pyValGet pluginV "name" (.str "")
    let desc ← pyValGet pluginV "description" (.str "")
    let sol ← pyValGet pluginV "solution" (.str "")
    let syn ← pyValGet pluginV "synopsis" (.str "")
    let seeAlsoRaw ← pyValGet pluginV "see_also" .none
    let seeAlso := if seeAlsoRaw.truthy then seeAlsoRaw else .list []
    let cveRaw ← pyValGet pluginV "cve" .none
    let cve := if cveRaw.truthy then cveRaw else .list []
    let exploit ← pyValGet pluginV "exploit_available" (.bool false)
    let hasPatch ← pyValGet pluginV "has_patch" (.bool false)
    let sev ← pyCapitalize (pyGet raw "severity" (.str "info"))
    .ok [("asset_uuid", uuid), ("hostname", hostname), ("ipv4", ipv4),
         ("operating_system", os),
         ("plugin_id", .str (pyStr pid)), ("plugin_name", pname),
         ("description", desc), ("solution", sol), ("synopsis", syn),
         ("see_also", seeAlso), ("cve", cve), ("exploit_available", exploit),
         ("has_patch", hasPatch),
         ("severity", .str sev), ("state", pyGet raw "state" (.str "unknown")),
         ("first_found", parseDate iso (pyGet raw "first_found" PyVal.none)),
         ("last_found", parseDate iso (pyGet raw "last_found" PyVal.none)),
         ("vendor", PyVal.none), ("product_family", PyVal.none),
         ("application", PyVal.none)]

/-- The severity entry of a raw record is absent or a string
(the source calls `.capitalize()` on it). -/
def severityStrOk (raw : List (String × PyVal)) : Bool :=
  match pyGet raw "severity" (.str "info") with
  | .str _ => true
  | _ => false

/-- The `asset`/`plugin` entry is absent, falsy, or a dict (the source calls
`.get` on `raw.get(k) or {}`). -/
def subObjOk (raw : List (String × PyVal)) (k : String) : Bool :=
  let v := pyGet raw k .none
  !v.truthy || (match v with | .dict _ => true | _ => false)

/-! ## Device classifier — `src/utils/device_detector.py`

`DeviceTypeDetector.detect_device_type`.  The pre-compiled pattern lists are
implemented literally: every pattern is a literal, a pair of literals joined
by `\s+`/`\s*`, or `ubuntu(?!.*desktop)`.  `re.IGNORECASE` search of a
lower-case literal pattern is realized by searching the lower-cased text. -/

/-- Search for `lit1` followed by whitespace (`\s+` when `one`, `\s*`
otherwise) followed by `lit2`, anywhere in the text. -/
def searchTwo (lit1 : List Char) (one : Bool) (lit2 : List Char) : List Char → Bool
  | [] => false
  | c :: t =>
      (strStarts (c :: t) lit1 &&
        (let rest := (c :: t).drop lit1.length
         (if one then (match rest with | d :: _ => pyWs d | [] => false) else true) &&
          strStarts (rest.dropWhile pyWs) lit2)) ||
      searchTwo lit1 one lit2 t

/-- The lookahead continuation of `ubuntu(?!.*desktop)`: is there an
occurrence of `desktop` reachable by `.*` (no newline crossed)? -/
def desktopAhead : List Char → Bool
  | [] => false
  | c :: t => strStarts (c :: t) "desktop".toList || (c != '\n' && desktopAhead t)

/-- `re.search(r'ubuntu(?!.*desktop)', ·)` on lower-cased text. -/
def searchUbuntu : List Char → Bool
  | [] => false
  | c :: t =>
      (strStarts (c :: t) "ubuntu".toList && !desktopAhead ((c :: t).drop 6)) ||
      searchUbuntu t

/-- `any(p.search(operating_system) for p in _SERVER_PATTERNS)`, the patterns
transcribed in source order. -/
def serverPatternsMatch (s : String) : Bool :=
  let l := (pyLower s).toList
  searchTwo "windows".toList true "server".toList l ||
  searchTwo "windows".toList true "2008".toList l ||
  searchTwo "windows".toList true "2012".toList l ||
  searchTwo "windows".toList true "2016".toList l ||
  searchTwo "windows".toList true "2019".toList l ||
  searchTwo "windows".toList true "2022".toList l ||
  searchTwo "windows".toList true "2025".toList l ||
  pyIn "datacenter" (pyLower s) ||
  searchTwo "standard".toList true "edition".toList l ||
  searchUbuntu l ||
  searchTwo "red".toList false "hat".toList l ||
  pyIn "rhel" (pyLower s) ||
  pyIn "centos" (pyLower s) ||
  pyIn "rocky" (pyLower s) ||
  pyIn "alma" (pyLower s) ||
  pyIn "debian" (pyLower s) ||
  pyIn "fedora" (pyLower s) ||
  searchTwo "oracle".toList true "linux".toList l ||
  pyIn "suse" (pyLower s) ||
  pyIn "opensuse" (pyLower s) ||
  searchTwo "amazon".toList true "linux".toList l ||
  pyIn "linux" (pyLower s) ||
  pyIn "server" (pyLower s)

/-- `any(p.search(operating_system) for p in _WORKSTATION_PATTERNS)`. -/
def workstationPatternsMatch (s : String) : Bool :=
  let l := (pyLower s).toList
  searchTwo "windows".toList true "10".toList l ||
  searchTwo "windows".toList true "11".toList l ||
  searchTwo "windows".toList true "7".toList l ||
  searchTwo "windows".toList true "8".toList l ||
  searchTwo "windows".toList true "xp".toList l ||
  pyIn "macos" (pyLower s) ||
  searchTwo "mac".toList true "os".toList l ||
  pyIn "desktop" (pyLower s)

/-- `_NETWORK_KEYWORDS`, in source order. -/
def networkKeywords : List String :=
  ["cisco", "juniper", "fortinet", "palo alto", "router", "switch", "firewall",
   "f5", "netscaler"]

/-- The classification path of `DeviceTypeDetector.detect_device_type` for a
string OS value: the loop `for pattern, device_type in overrides.items()`
returns on the first pattern contained in the lower-cased OS string, before
any built-in list is consulted; the built-in lists follow in source order. -/
def classifyOsString (overrides : List (String × String)) (s : String) : String :=
  let osLower := pyLower s
  match overrides.find? (fun e => pyIn e.1 osLower) with
  | some e => e.2
  | Option.none =>
      if serverPatternsMatch s then "server"
      else if workstationPatternsMatch s then "workstation"
      else if networkKeywords.any (fun k => pyIn k osLower) then "network"
      else "unknown"

/-- `DeviceTypeDetector.detect_device_type`.  `overrides` is the in-memory
override mapping (pattern → device type) in its stored order.  Falsy input
returns `unknown`; a list is reduced to its first element; a non-string
value (after that reduction) returns `unknown`. -/
def detect_device_type (overrides : List (String × String)) (os : PyVal) : String :=
  if !os.truthy then "unknown"
  else
    let os1 := match os with
      | .list xs => (match xs with | x :: _ => x | [] => .str "")
      | v => v
    match os1 with
    | .str s => classifyOsString overrides s
    | _ => "unknown"

/-! ## Quick-win detector — `src/processors/quick_wins_detector.py`

`QuickWinsDetector`.  The record is the normalized dict viewed through the
fields the detector reads: `plugin_name` models `vuln.get("plugin_name", "")`
(string-valued), the `Option String` fields model the source's explicit
`None`-guards (`None` and a missing key both degrade to `""`), `has_patch`
models the truthiness of `vuln.get("has_patch", False)`. -/

structure QVuln where
  plugin_name : String
  description : Option String
  solution : Option String
  synopsis : Option String
  has_patch : Bool
  severity : String
  quick_win_category : Option String
deriving DecidableEq, Repr

/-- `\d+\.\d+` anchored at the head of the text. -/
def numDotNum (l : List Char) : Bool :=
  match l with
  | [] => false
  | c :: _ =>
      c.isDigit &&
      (match l.dropWhile Char.isDigit with
       | '.' :: d :: _ => d.isDigit
       | _ => false)

/-- Search for `lit` followed by `\s+` (or `\s*` when `one` is false)
followed by `\d+\.\d+`, anywhere in the text. -/
def searchVerPat (lit : List Char) (one : Bool) : List Char → Bool
  | [] => false
  | c :: t =>
      (strStarts (c :: t) lit &&
        (let rest := (c :: t).drop lit.length
         (if one then (match rest with | d :: _ => pyWs d | [] => false) else true) &&
          numDotNum (rest.dropWhile pyWs))) ||
      searchVerPat lit one t

/-- `self.version_regex.search(combined_text)`: the alternation of the eight
`VERSION_PATTERNS`, transcribed in source order (the combined text is already
lower-case, so `re.IGNORECASE` is moot). -/
def versionRegexSearch (s : String) : Bool :=
  let l := s.toList
  searchVerPat "<".toList false l ||
  searchVerPat "prior to".toList true l ||
  searchVerPat "before".toList true l ||
  searchVerPat "less than".toList true l ||
  searchVerPat "earlier than".toList true l ||
  searchVerPat "below".toList true l ||
  searchVerPat "upgrade to".toList true l ||
  searchVerPat "update to".toList true l

/-- `UNSUPPORTED_KEYWORDS`, in source order. -/
def unsupportedKeywords : List String :=
  ["unsupported", "end of life", "end-of-life", "eol", "deprecated",
   "no longer supported", "not supported", "reached end of support",
   "extended support ended", "obsolete", "discontinued"]

/-- The source's `None`-guarded lower-casing of an optional text field. -/
def optLower (o : Option String) : String :=
  pyLower (o.getD "")

/-- `QuickWinsDetector.is_version_threshold`. -/
def is_version_threshold (v : QVuln) : Bool :=
  let combined :=
    pyLower v.plugin_name ++ " " ++ optLower v.description ++ " " ++ optLower v.solution
  versionRegexSearch combined && v.has_patch

/-- `QuickWinsDetector.is_unsupported_product`. -/
def is_unsupported_product (v : QVuln) : Bool :=
  let combined :=
    pyLower v.plugin_name ++ " " ++ optLower v.description ++ " " ++
      optLower v.solution ++ " " ++ optLower v.synopsis
  unsupportedKeywords.any (fun k => pyIn k combined)

/-- The per-record category assignment of the `detect_quick_wins` loop:
version-threshold is checked first, unsupported-product only in the `elif`. -/
def assignCategory (v : QVuln) : QVuln :=
  if is_version_threshold v then { v with quick_win_category := some "version_threshold" }
  else if is_unsupported_product v then { v with quick_win_category := some "unsupported_product" }
  else { v with quick_win_category := Option.none }

structure QuickWinsResult where
  version_threshold : List QVuln
  unsupported_product : List QVuln
  total_quick_wins : Nat
  records : List QVuln
deriving Repr

/-- `QuickWinsDetector.detect_quick_wins`.  The Python loop appends the
record object to a bucket and then mutates its `quick_win_category`
in place, so the buckets hold the updated records; `records` is the
(mutated) input list. -/
def detect_quick_wins (vulns : List QVuln) : QuickWinsResult :=
  let vt := (vulns.filter (fun v => is_version_threshold v)).map assignCategory
  let up := (vulns.filter
      (fun v => !is_version_threshold v && is_unsupported_product v)).map assignCategory
  { version_threshold := vt
    unsupported_product := up
    total_quick_wins := vt.length + up.length
    records := vulns.map assignCategory }

/-! ## Vendor detector — `src/processors/vendor_detector.py`

`VendorDetector.detect` and `VendorDetector._heuristic_detection`.
Rules live in the database; `rules` is the list the constructor loads
(enabled rules, ordered by descending priority).  The external `re` engine
is passed in: `compiles p` says `re.compile(p, re.IGNORECASE)` succeeded at
load time (invalid patterns are skipped) and `rsearch p text` is
`pattern.search(text)` of the compiled pattern. -/

structure VendorProductRule where
  vendor_name : String
  product_family : Option String
  regex_pattern : Option String
  keyword : Option String
  priority : Int
  enabled : Bool
deriving DecidableEq, Repr

inductive ConfidenceLevel where
  | high : ConfidenceLevel
  | medium : ConfidenceLevel
  | low : ConfidenceLevel
deriving DecidableEq, Repr

structure VendorProduct where
  vendor : String
  product_family : Option String
  confidence : ConfidenceLevel
deriving DecidableEq, Repr

/-- The record fields `VendorDetector.detect` reads
(`vuln.get(k, "").lower()`, with no `None`-guard in this class). -/
structure VVuln where
  plugin_name : String
  description : String
  solution : String
deriving DecidableEq, Repr

/-- `combined_text = f"{plugin_name} {description} {solution}"` of the
lower-cased parts. -/
def combinedText (v : VVuln) : String :=
  pyLower v.plugin_name ++ " " ++ pyLower v.description ++ " " ++ pyLower v.solution

/-- The regex branch of a rule fires: the rule has a truthy pattern, the
pattern compiled at load time, and it matches the combined text. -/
def regexHit (compiles : String → Bool) (rsearch : String → String → Bool)
    (text : String) (r : VendorProductRule) : Bool :=
  match r.regex_pattern with
  | some p => !(p == "") && compiles p && rsearch p text
  | Option.none => false

/-- The keyword branch of a rule fires: truthy keyword contained
(lower-cased) in the combined text. -/
def keywordHit (text : String) (r : VendorProductRule) : Bool :=
  match r.keyword with
  | some k => !(k == "") && pyIn (pyLower k) text
  | Option.none => false

/-- One iteration of the rule loop in `VendorDetector.detect`: regex branch
first (high confidence), then keyword branch (medium confidence). -/
def matchRule (compiles : String → Bool) (rsearch : String → String → Bool)
    (text : String) (r : VendorProductRule) : Option VendorProduct :=
  if regexHit compiles rsearch text r then
    some ⟨r.vendor_name, r.product_family, .high⟩
  else if keywordHit text r then
    some ⟨r.vendor_name, r.product_family, .medium⟩
  else
    Option.none

/-- The Microsoft gate keywords of `_heuristic_detection`, in source order. -/
def msKeywords : List String :=
  ["microsoft", "windows", "ms ", ".net", "azure", "iis"]

/-- `VendorDetector._heuristic_detection`: the static if/elif cascade,
transcribed branch by branch in source order.  (`plugin_name` is a parameter
of the source method even though only `text` is consulted.) -/
def heuristicDetection (plugin_name text : String) : VendorProduct :=
  if msKeywords.any (fun k => pyIn k text) then
    (if pyIn "windows server" text || pyIn "server 20" text then
      ⟨"Microsoft", some "Windows Server", .high⟩
    else if pyIn "windows" text then ⟨"Microsoft", some "Windows", .high⟩
    else if pyIn "office" text then ⟨"Microsoft", some "Office", .medium⟩
    else ⟨"Microsoft", Option.none, .medium⟩)
  else if pyIn "ubuntu" text then ⟨"Canonical", some "Ubuntu", .high⟩
  else if pyIn "debian" text then ⟨"Debian", some "Debian", .high⟩
  else if pyIn "red hat" text || pyIn "rhel" text then ⟨"Red Hat", some "RHEL", .high⟩
  else if pyIn "centos" text then ⟨"CentOS", some "CentOS", .high⟩
  else if pyIn "fedora" text then ⟨"Fedora", some "Fedora", .high⟩
  else if pyIn "suse" text || pyIn "sles" text then ⟨"SUSE", some "SUSE Linux", .high⟩
  else if pyIn "apache " text then
    (if pyIn "tomcat" text then ⟨"Apache", some "Tomcat", .high⟩
    else if pyIn "http server" text || pyIn "httpd" text then
      ⟨"Apache", some "HTTP Server", .high⟩
    else ⟨"Apache", Option.none, .medium⟩)
  else if pyIn "oracle" text then
    (if pyIn "database" text || pyIn "db" text then ⟨"Oracle", some "Database", .high⟩
    else if pyIn "java" text || pyIn "jdk" text || pyIn "jre" text then
      ⟨"Oracle", some "Java", .high⟩
    else ⟨"Oracle", Option.none, .medium⟩)
  else if pyIn "vmware" text then
    (if pyIn "esxi" text then ⟨"VMware", some "ESXi", .high⟩
    else if pyIn "vcenter" text then ⟨"VMware", some "vCenter", .high⟩
    else ⟨"VMware", Option.none, .medium⟩)
  else if pyIn "cisco" text then
    (if pyIn "ios" text && pyIn "cisco ios" text then ⟨"Cisco", some "IOS", .high⟩
    else if pyIn "asa" text then ⟨"Cisco", some "ASA", .high⟩
    else ⟨"Cisco", Option.none, .medium⟩)
  else if pyIn "php" text then ⟨"PHP", some "PHP", .high⟩
  else if pyIn "python" text then ⟨"Python", some "Python", .high⟩
  else if pyIn "node.js" text || pyIn "nodejs" text then ⟨"Node.js", some "Node.js", .high⟩
  else if pyIn "docker" text then ⟨"Docker", some "Docker", .high⟩
  else if pyIn "kubernetes" text || pyIn "k8s" text then
    ⟨"Kubernetes", some "Kubernetes", .high⟩
  else if pyIn "nginx" text then ⟨"Nginx", some "Nginx", .high⟩
  else if pyIn "postgresql" text || pyIn "postgres" text then
    ⟨"PostgreSQL", some "PostgreSQL", .high⟩
  else if pyIn "mysql" text then ⟨"MySQL", some "MySQL", .high⟩
  else if pyIn "mariadb" text then ⟨"MariaDB", some "MariaDB", .high⟩
  else if pyIn "mongodb" text || pyIn "mongo" text then ⟨"MongoDB", some "MongoDB", .high⟩
  else if pyIn "redis" text then ⟨"Redis", some "Redis", .high⟩
  else if pyIn "openssl" text then ⟨"OpenSSL", some "OpenSSL", .high⟩
  else if pyIn "libressl" text then ⟨"LibreSSL", some "LibreSSL", .high⟩
  else ⟨"Other", Option.none, .low⟩

/-- Does any branch guard of the heuristic cascade fire?  (Used to state
"no built-in heuristic matches".) -/
def heuristicGuards (text : String) : Bool :=
  msKeywords.any (fun k => pyIn k text) ||
  pyIn "ubuntu" text || pyIn "debian" text ||
  (pyIn "red hat" text || pyIn "rhel" text) ||
  pyIn "centos" text || pyIn "fedora" text ||
  (pyIn "suse" text || pyIn "sles" text) ||
  pyIn "apache " text || pyIn "oracle" text || pyIn "vmware" text ||
  pyIn "cisco" text || pyIn "php" text || pyIn "python" text ||
  (pyIn "node.js" text || pyIn "nodejs" text) ||
  pyIn "docker" text ||
  (pyIn "kubernetes" text || pyIn "k8s" text) ||
  pyIn "nginx" text ||
  (pyIn "postgresql" text || pyIn "postgres" text) ||
  pyIn "mysql" text || pyIn "mariadb" text ||
  (pyIn "mongodb" text || pyIn "mongo" text) ||
  pyIn "redis" text || pyIn "openssl" text || pyIn "libressl" text

/-- `VendorDetector.detect`: first matching rule wins (the list is loaded in
descending priority order); the heuristic cascade is the fallback. -/
def detect (compiles : String → Bool) (rsearch : String → String → Bool)
    (rules : List VendorProductRule) (v : VVuln) : VendorProduct :=
  let text := combinedText v
  match rules.findSome? (matchRule compiles rsearch text) with
  | some vp => vp
  | Option.none => heuristicDetection (pyLower v.plugin_name) text

/-- The load-time ordering invariant of `VendorDetector._load_rules`
(`ORDER BY priority DESC`): priorities are non-increasing along the list. -/
def PrioSorted (rules : List VendorProductRule) : Prop :=
  rules.Pairwise (fun a b => b.priority ≤ a.priority)

/-! ## Hierarchical grouper — `src/processors/grouper.py`

`VulnerabilityGrouper`.  Records are viewed through the fields the grouper
reads: `vendor : Option String` models `vuln.get("vendor", "Other")`
(`Option.none` = key absent, so the default applies; enriched records always
carry a string vendor), `product_family` is `None` or a string exactly as in
the dict, `severity` models `vuln.get("severity", "")`, `asset_uuid` models
`vuln.get("asset_uuid")`.  Python dicts preserve insertion order, so the
nested `defaultdict` becomes an insertion-ordered association list. -/

structure GVuln where
  vendor : Option String
  product_family : Option String
  severity : String
  asset_uuid : Option String
deriving DecidableEq, Repr

/-- One vendor's products dict: product-family key → record list. -/
abbrev ProductMap := List (Option String × List GVuln)

/-- The grouped structure: vendor → product → records, in insertion order. -/
abbrev Grouped := List (String × ProductMap)

/-- Append a record to its product bucket, creating the bucket at the end on
a fresh key (defaultdict/dict insertion-order semantics). -/
def bucketAdd (ps : ProductMap) (p : Option String) (v : GVuln) : ProductMap :=
  match ps with
  | [] => [(p, [v])]
  | (q, l) :: rest =>
      if q = p then (q, l ++ [v]) :: rest else (q, l) :: bucketAdd rest p v

/-- Append a record to its vendor/product bucket. -/
def groupedAdd (g : Grouped) (vendor : String) (p : Option String) (v : GVuln) : Grouped :=
  match g with
  | [] => [(vendor, [(p, [v])])]
  | (w, ps) :: rest =>
      if w = vendor then (w, bucketAdd ps p v) :: rest
      else (w, ps) :: groupedAdd rest vendor p v

/-- `VulnerabilityGrouper.group_by_vendor_product`. -/
def group_by_vendor_product (vulns : List GVuln) : Grouped :=
  vulns.foldl (fun g v => groupedAdd g (v.vendor.getD "Other") v.product_family v) []

/-- `VulnerabilityGrouper.calculate_vendor_severity_score`:
critical 10, high 5, medium 2, low 1. -/
def calculate_vendor_severity_score (vulns : List GVuln) : Int :=
  vulns.foldl (fun score v =>
    let s := pyLower v.severity
    if s = "critical" then score + 10
    else if s = "high" then score + 5
    else if s = "medium" then score + 2
    else if s = "low" then score + 1
    else score) 0

/-- The flattening `for product_vulns in products.values(): ... .extend(...)`. -/
def vendorAllVulns (ps : ProductMap) : List GVuln :=
  (ps.map Prod.snd).flatten

/-- The Python sort key `lambda x: (x[0] == "Other", -x[2])` compared
lexicographically (`False < True` on the first component). -/
def sortKeyLe (a b : Bool × Int) : Prop :=
  (a.1 = false ∧ b.1 = true) ∨ (a.1 = b.1 ∧ a.2 ≤ b.2)

/-- A scored vendor entry `(vendor, products, score)`. -/
abbrev ScoredVendor := String × ProductMap × Int

/-- The comparison `sorted` uses on scored vendor entries. -/
def vendorOrder (a b : ScoredVendor) : Prop :=
  sortKeyLe (decide (a.1 = "Other"), -a.2.2) (decide (b.1 = "Other"), -b.2.2)

instance : DecidableRel vendorOrder := fun a b => by
  unfold vendorOrder sortKeyLe
  exact inferInstance

instance : IsTotal ScoredVendor vendorOrder where
  total := by
    intro a b
    unfold vendorOrder sortKeyLe
    rcases h1 : decide (a.1 = "Other") <;> rcases h2 : decide (b.1 = "Other") <;>
      simp <;> omega

instance : IsTrans ScoredVendor vendorOrder where
  trans := by
    intro a b c hab hbc
    unfold vendorOrder sortKeyLe at *
    rcases hab with ⟨h1, h2⟩ | ⟨h1, h2⟩ <;> rcases hbc with ⟨h3, h4⟩ | ⟨h3, h4⟩ <;>
      simp_all <;> omega

/-- `VulnerabilityGrouper.sort_vendors_by_severity`: Python's `sorted` is the
stable sort by the key above, realized here by Mathlib's stable
`insertionSort`. -/
def sort_vendors_by_severity (g : Grouped) : Grouped :=
  let scored : List ScoredVendor :=
    g.map (fun e => (e.1, e.2, calculate_vendor_severity_score (vendorAllVulns e.2)))
  (List.insertionSort vendorOrder scored).map (fun t => (t.1, t.2.1))

/-- The truthy-filtered distinct asset identifiers
(`set(v.get("asset_uuid") for v in vulns if v.get("asset_uuid"))`). -/
def distinctAssets (vulns : List GVuln) : List String :=
  (vulns.filterMap (fun v =>
    match v.asset_uuid with
    | some s => if s = "" then Option.none else some s
    | Option.none => Option.none)).dedup

structure ProductStats where
  total_vulns : Nat
  affected_assets : Nat
deriving DecidableEq, Repr

structure VendorStats where
  total_vulns : Nat
  affected_assets : Nat
  critical : Nat
  high : Nat
  medium : Nat
  low : Nat
  prod_stats : List (Option String × ProductStats)
  products : List String
deriving DecidableEq, Repr

/-- Count of records at a given (lower-cased) severity. -/
def sevCount (vulns : List GVuln) (s : String) : Nat :=
  (vulns.filter (fun v => pyLower v.severity = s)).length

/-- `VulnerabilityGrouper.get_vendor_statistics`. -/
def get_vendor_statistics (g : Grouped) : List (String × VendorStats) :=
  g.map (fun e =>
    let all := vendorAllVulns e.2
    (e.1,
      { total_vulns := all.length
        affected_assets := (distinctAssets all).length
        critical := sevCount all "critical"
        high := sevCount all "high"
        medium := sevCount all "medium"
        low := sevCount all "low"
        prod_stats := e.2.map (fun pe =>
          (pe.1, ⟨(pe.2).length, (distinctAssets pe.2).length⟩))
        products := e.2.filterMap Prod.fst }))

/-- `VulnerabilityGrouper.group_and_sort`. -/
def group_and_sort (vulns : List GVuln) :
    Grouped × List (String × VendorStats) :=
  let grouped := group_by_vendor_product vulns
  (sort_vendors_by_severity grouped, get_vendor_statistics grouped)

/-! ## Freshness cache — `src/cache.py`

`VulnCache`.  The cache directory holds two files per key
(`vulns_{key}.json` and `vulns_{key}_meta.json`); the filesystem state is
the pair of partial maps from cache key to parsed content (a decode failure
or missing field is already folded into `Option.none`, matching the
source's `except ... return None`).  `_get_cache_key` hashes the
key-sorted JSON serialization; the hash is modelled by that canonical
serialization itself (an injective stand-in for the hex digest).  Times are
rationals in seconds since the epoch; `CACHE_MAX_AGE_HOURS` is the config
knob.  `Rec` is the raw-record type and `FV` the filter-value type (the
JSON round trip through the data file is the identity on parsed values). -/

/-- `json.dumps(filters, sort_keys=True)`: the filter items in key order
(stable, so equal-keyed items keep their order; Python dict keys are
unique). -/
def cacheKey {FV : Type} (filters : List (String × FV)) : List (String × FV) :=
  List.insertionSort (fun a b => a.1 ≤ b.1) filters

structure CacheMeta (FV : Type) where
  timestamp : ℚ
  filters : List (String × FV)
  count : Nat

/-- The on-disk state of the cache directory. -/
structure CacheFS (Rec FV : Type) where
  data : List (String × FV) → Option (List Rec)
  meta : List (String × FV) → Option (CacheMeta FV)

/-- `VulnCache.get`: miss when either file is absent; stale
(`age_hours > CACHE_MAX_AGE_HOURS`) is treated as absent; otherwise the
records and metadata are returned. -/
def VulnCache.get {Rec FV : Type} (maxAgeHours : ℚ) (fs : CacheFS Rec FV) (now : ℚ)
    (filters : List (String × FV)) : Option (List Rec × CacheMeta FV) :=
  let key := cacheKey filters
  match fs.meta key with
  | Option.none => Option.none
  | some md =>
      let ageHours := (now - md.timestamp) / 3600
      if ageHours > maxAgeHours then Option.none
      else
        match fs.data key with
        | Option.none => Option.none
        | some vulns => some (vulns, md)

/-- `VulnCache.set`: writes the data file and the metadata file
(`{timestamp, filters, count}`) for the key. -/
def VulnCache.set {Rec FV : Type} [DecidableEq FV] (fs : CacheFS Rec FV) (now : ℚ)
    (filters : List (String × FV)) (vulns : List Rec) : CacheFS Rec FV :=
  let key := cacheKey filters
  { data := fun k => if k = key then some vulns else fs.data k
    meta := fun k => if k = key then some ⟨now, filters, vulns.length⟩ else fs.meta k }

/-! ## Export client — `src/tenable_client.py`

`TenableExporter`.  The HTTP transport is external; a chunk download is the
function `fetch : Int → List PyVal` (chunk id → parsed chunk body), and the
`as_completed` completion order of the thread pool is the external list
`order` (a permutation of the submitted chunk ids).  The FINISHED status
payload's `chunks_available` is either an integer count or a list of chunk
identifiers. -/

inductive ChunksAvailable where
  | count : Int → ChunksAvailable
  | ids : List Int → ChunksAvailable
deriving DecidableEq, Repr

/-- Python's `range(n)` as a list. -/
def pyRange (n : Int) : List Int :=
  (List.range n.toNat).map Int.ofNat

/-- The chunk identifiers `_download_chunks` submits:
`range(chunks_available)`, which raises `TypeError` when the payload is a
list (`'list' object cannot be interpreted as an integer`). -/
def chunkIdsToFetch : ChunksAvailable → Except PyErr (List Int)
  | .count n => .ok (pyRange n)
  | .ids _ => .error .typeError

/-- `TenableExporter._download_chunks`: one future per chunk id, results
extended into the merged list in completion order.  A sound use requires
`order` to be a permutation of the submitted ids. -/
def download_chunks (fetch : Int → List PyVal) (order : List Int)
    (ca : ChunksAvailable) : Except PyErr (List PyVal) := do
  let _ids ← chunkIdsToFetch ca
  .ok ((order.map fetch).flatten)

/-- `TenableExporter.export_vulnerabilities`, from the point where
`_poll_export_status` has returned a FINISHED payload whose
`chunks_available` field is `ca` (initiation and polling are network
interactions that precede the downloading this claim is about). -/
def export_vulnerabilities (fetch : Int → List PyVal) (order : List Int)
    (ca : ChunksAvailable) : Except PyErr (List PyVal) :=
  download_chunks fetch order ca

/-! ## Vulnerability sync — `src/services/sync_manager.py`

`SyncManager.sync_vulnerabilities`, step 3: the batch of row mappings handed
to `session.bulk_insert_mappings(Vulnerability, processed_objects)`.  The
loop builds one row per normalized record with no deduplication.  The
normalized record is viewed through the fields the loop reads; the two
detectors are the collaborating classifier functions. -/

structure SVuln where
  asset_uuid : Option String
  hostname : Option String
  ipv4 : Option String
  operating_system : Option String
  plugin_id : Option String
  plugin_name : Option String
  severity : Option String
  state : Option String
  cve : List String
  exploit_available : Bool
  solution : Option String
  description : Option String
deriving DecidableEq, Repr

structure DBRow where
  asset_uuid : Option String
  hostname : Option String
  ipv4 : Option String
  operating_system : Option String
  device_type : String
  plugin_id : Option String
  plugin_name : Option String
  severity : Option String
  state : Option String
  cve : List String
  exploit_available : Bool
  vendor : String
  product : Option String
  solution : Option String
  description : Option String
deriving DecidableEq, Repr

/-- `s[:n] if s else None` (falsy strings become `None`). -/
def truthyTrunc (n : Nat) : Option String → Option String
  | some s => if s = "" then Option.none else some (pyTrunc n s)
  | Option.none => Option.none

/-- One iteration of the `processed_objects.append({...})` loop. -/
def buildRow (devDetect : Option String → String)
    (vendDetect : SVuln → Option VendorProduct) (v : SVuln) : DBRow :=
  let vres := vendDetect v
  { asset_uuid := v.asset_uuid
    hostname := v.hostname
    ipv4 := v.ipv4
    operating_system := truthyTrunc 255 v.operating_system
    device_type := devDetect v.operating_system
    plugin_id := v.plugin_id
    plugin_name := truthyTrunc 500 v.plugin_name
    severity := v.severity
    state := v.state
    cve := v.cve
    exploit_available := v.exploit_available
    vendor := (match vres with | some r => r.vendor | Option.none => "Other")
    product := (match vres with | some r => r.product_family | Option.none => Option.none)
    solution := truthyTrunc 2000 v.solution
    description := truthyTrunc 2000 v.description }

/-- The full batch handed to `bulk_insert_mappings`: one row per input
record, in order. -/
def processedObjects (devDetect : Option String → String)
    (vendDetect : SVuln → Option VendorProduct) (vulns : List SVuln) : List DBRow :=
  vulns.map (buildRow devDetect vendDetect)

/-- Number of rows in a batch carrying a given (asset identifier, plugin id)
pair — the quantity the `uq_asset_plugin` unique constraint bounds by 1. -/
def pairCount (rows : List DBRow) (a p : Option String) : Nat :=
  (rows.filter (fun r => r.asset_uuid = a ∧ r.plugin_id = p)).length

/-! ## Theorems -/

/-- **C1.**  The export client does not treat the two forms of the
finished-status `chunks_available` payload uniformly.  An integer count `3`
yields exactly the chunk-fetch identifiers `0,1,2` and the export returns
the concatenation of the fetched chunks (in completion order), but an
explicit list `[0,1,2]` reaches `range(chunks_available)` and raises
`TypeError` instead of fetching anything — contradicting the repository's
own `tests/test_chunk_fix.py`. -/
theorem chunks_available_forms_diverge (fetch : Int → List PyVal) :
    chunkIdsToFetch (.count 3) = .ok [0, 1, 2] ∧
    export_vulnerabilities fetch [0, 1, 2] (.count 3) =
      .ok (fetch 0 ++ fetch 1 ++ fetch 2) ∧
    export_vulnerabilities fetch [0, 1, 2] (.ids [0, 1, 2]) = .error .typeError := by
  refine ⟨rfl, ?_, rfl⟩
  simp [export_vulnerabilities, download_chunks, chunkIdsToFetch, bind, Except.bind]

/-- **C3.**  The vulnerability-sync batch handed to
`bulk_insert_mappings` is not deduplicated: the loop emits exactly one row
per normalized record (first conjunct), so two records sharing an asset
UUID and plugin id yield a batch containing that pair twice (second
conjunct, at a concrete input derived from `tests/verify_fix.py`) — the
`uq_asset_plugin` unique constraint then rejects the bulk insert. -/
theorem sync_batch_not_deduplicated :
    (∀ (d : Option String → String) (w : SVuln → Option VendorProduct)
      (vulns : List SVuln), (processedObjects d w vulns).length = vulns.length) ∧
    pairCount
      (processedObjects (fun _ => "server") (fun _ => Option.none)
        [⟨some "asset-1", some "host", Option.none, Option.none, some "1001",
          some "Test Plugin", some "High", some "ACTIVE", [], false,
          Option.none, Option.none⟩,
         ⟨some "asset-1", some "host", Option.none, Option.none, some "1001",
          some "Test Plugin", some "Medium", some "ACTIVE", [], false,
          Option.none, Option.none⟩])
      (some "asset-1") (some "1001") = 2 := by
  refine ⟨?_, by decide⟩
  intro d w vulns
  simp [processedObjects]

/-- **C2 counterexample.**  `normalize` is not total: a record whose
`severity` value is `null` reaches `None.capitalize()` and raises
`AttributeError`, so the claim as stated fails at this input. -/
theorem normalize_null_severity_raises :
    normalize (fun _ => Option.none) [("severity", PyVal.none)] =
      .error .attributeError := rfl

/-- **C2 (amended).**  For every non-empty raw record dictionary whose
`severity` value (when present) is a string and whose `asset`/`plugin`
entries are absent, falsy, or dicts, `normalize` returns a canonical record
without raising; a missing or null asset degrades the hostname to
`"unknown"`, and a non-empty date string that fails to parse is retained
unmodified in the output. -/
theorem normalize_total_on_wellformed (iso : String → Option String)
    (raw : List (String × PyVal))
    (hne : (PyVal.dict raw).truthy = true)
    (hsev : severityStrOk raw = true)
    (hasset : subObjOk raw "asset" = true)
    (hplugin : subObjOk raw "plugin" = true) :
    ∃ out, normalize iso raw = .ok out ∧
      ((pyGet raw "asset" PyVal.none).truthy = false →
        pyGet out "hostname" PyVal.none = .str "unknown") ∧
      (∀ s, s ≠ "" → pyGet raw "first_found" PyVal.none = .str s →
        iso (pyReplace s "Z" "+00:00") = Option.none →
        pyGet out "first_found" PyVal.none = .str s) := by
  obtain ⟨da, hda⟩ : ∃ d, orEmptyDict (pyGet raw "asset" PyVal.none) = .dict d := by
    simp only [subObjOk] at hasset
    unfold orEmptyDict
    by_cases ht : (pyGet raw "asset" PyVal.none).truthy = true
    · rw [if_pos ht]
      rcases h : pyGet raw "asset" PyVal.none with _ | b | n | s | xs | d <;>
        rw [h] at hasset ht <;> simp_all
    · rw [if_neg ht]
      exact ⟨[], rfl⟩
  obtain ⟨dp, hdp⟩ : ∃ d, orEmptyDict (pyGet raw "plugin" PyVal.none) = .dict d := by
    simp only [subObjOk] at hplugin
    unfold orEmptyDict
    by_cases ht : (pyGet raw "plugin" PyVal.none).truthy = true
    · rw [if_pos ht]
      rcases h : pyGet raw "plugin" PyVal.none with _ | b | n | s | xs | d <;>
        rw [h] at hplugin ht <;> simp_all
    · rw [if_neg ht]
      exact ⟨[], rfl⟩
  obtain ⟨sv, hsv⟩ : ∃ s, pyGet raw "severity" (.str "info") = .str s := by
    unfold severityStrOk at hsev
    rcases h : pyGet raw "severity" (.str "info") <;> simp_all
  refine ⟨[("asset_uuid", pyGet da "uuid" PyVal.none),
      ("hostname", if (pyGet da "hostname" PyVal.none).truthy then
        pyGet da "hostname" PyVal.none else .str "unknown"),
      ("ipv4", pyGet da "ipv4" PyVal.none),
      ("operating_system", pyGet da "operating_system" PyVal.none),
      ("plugin_id", .str (pyStr (pyGet dp "id" (.str "")))),
      ("plugin_name", pyGet dp "name" (.str "")),
      ("description", pyGet dp "description" (.str "")),
      ("solution", pyGet dp "solution" (.str "")),
      ("synopsis", pyGet dp "synopsis" (.str "")),
      ("see_also", if (pyGet dp "see_also" PyVal.none).truthy then
        pyGet dp "see_also" PyVal.none else .list []),
      ("cve", if (pyGet dp "cve" PyVal.none).truthy then
        pyGet dp "cve" PyVal.none else .list []),
      ("exploit_available", pyGet dp "exploit_available" (.bool false)),
      ("has_patch", pyGet dp "has_patch" (.bool false)),
      ("severity", .str (pyCapitalizeStr sv)),
      ("state", pyGet raw "state" (.str "unknown")),
      ("first_found", parseDate iso (pyGet raw "first_found" PyVal.none)),
      ("last_found", parseDate iso (pyGet raw "last_found" PyVal.none)),
      ("vendor", PyVal.none), ("product_family", PyVal.none),
      ("application", PyVal.none)], ?_, ?_, ?_⟩
  · unfold normalize
    rw [if_neg (by simp [hne])]
    simp only [hda, hdp, hsv, pyValGet, pyCapitalize, bind, Except.bind]
  · intro hfalsy
    have hda0 : da = [] := by
      unfold orEmptyDict at hda
      rw [if_neg (by simp [hfalsy])] at hda
      cases hda; rfl
    subst hda0
    simp [pyGet, List.find?, PyVal.truthy]
  · intro s hs hget hiso
    have hpd : parseDate iso (PyVal.str s) = PyVal.str s := by
      simp [parseDate, PyVal.truthy, hs, hiso]
    rw [hget, hpd]
    simp [pyGet, List.find?]

/-- **C2 witness.**  The amended normalizer theorem at a concrete record
with a null asset and an unparseable date. -/
theorem normalize_total_on_wellformed_witness :
    ∃ out, normalize (fun _ => Option.none)
        [("asset", PyVal.none), ("first_found", PyVal.str "not-a-date")] = .ok out ∧
      ((pyGet [("asset", PyVal.none), ("first_found", PyVal.str "not-a-date")]
          "asset" PyVal.none).truthy = false →
        pyGet out "hostname" PyVal.none = .str "unknown") ∧
      (∀ s, s ≠ "" →
        pyGet [("asset", PyVal.none), ("first_found", PyVal.str "not-a-date")]
          "first_found" PyVal.none = PyVal.str s →
        (fun _ => (Option.none : Option String)) (pyReplace s "Z" "+00:00") =
          Option.none →
        pyGet out "first_found" PyVal.none = PyVal.str s) :=
  normalize_total_on_wellformed (fun _ => Option.none)
    [("asset", PyVal.none), ("first_found", PyVal.str "not-a-date")]
    (by decide) (by decide) (by decide) (by decide)

/-- **C5.**  Device classification consults the user overrides before every
built-in signature list, testing each override pattern for substring
containment in the lower-cased OS string in stored order, with the first
match winning; concretely, the override `"custom os" → server` makes
`detect_device_type("Custom OS Desktop")` return `server`, although the
built-in rules alone classify that string as `workstation`. -/
theorem override_precedence (overrides : List (String × String)) (s : String)
    (e : String × String) (hs : s ≠ "")
    (h : overrides.find? (fun e => pyIn e.1 (pyLower s)) = some e) :
    detect_device_type overrides (.str s) = e.2 ∧
    detect_device_type [("custom os", "server")] (.str "Custom OS Desktop") =
      "server" ∧
    detect_device_type [] (.str "Custom OS Desktop") = "workstation" := by
  refine ⟨?_, by decide, by decide⟩
  simp [detect_device_type, classifyOsString, PyVal.truthy, hs, h]

/-- **C5 witness.**  The override-precedence theorem at the spec's concrete
example. -/
theorem override_precedence_witness :
    detect_device_type [("custom os", "server")] (.str "Custom OS Desktop") =
      ("custom os", "server").2 ∧
    detect_device_type [("custom os", "server")] (.str "Custom OS Desktop") =
      "server" ∧
    detect_device_type [] (.str "Custom OS Desktop") = "workstation" :=
  override_precedence [("custom os", "server")] "Custom OS Desktop"
    ("custom os", "server") (by decide) (by decide)

/-- Is the value a Python `str`? -/
def PyVal.isStrB : PyVal → Bool
  | .str _ => true
  | _ => false

/-- Is the value a Python `list`? -/
def PyVal.isListB : PyVal → Bool
  | .list _ => true
  | _ => false

/-- **C10 counterexample.**  `detect_device_type` does not return the
classification of a non-empty list's first element when that element is
itself a list: the nested list below classifies as `unknown` although its
first element classifies as `server`. -/
theorem detect_device_type_nested_list_counterexample :
    detect_device_type [] (.list [.list [.str "Windows Server 2019"]]) =
      "unknown" ∧
    detect_device_type [] (.list [.str "Windows Server 2019"]) = "server" := by
  decide

/-- **C10 (amended).**  `detect_device_type` is total with a closed codomain:
falsy inputs (including `None`, `""` and `[]`) and non-string non-list
inputs yield `unknown`; a non-empty list is reduced to its first element
without recursing — a non-empty-string first element is classified like
that string, any non-string first element yields `unknown`; and when every
stored override value lies in {server, workstation, network, unknown} the
result is always one of those four tokens. -/
theorem detect_device_type_total (overrides : List (String × String)) :
    (∀ v : PyVal, v.truthy = false → detect_device_type overrides v = "unknown") ∧
    (∀ v : PyVal, v.isStrB = false → v.isListB = false →
      detect_device_type overrides v = "unknown") ∧
    (∀ (s : String) (xs : List PyVal), s ≠ "" →
      detect_device_type overrides (.list (.str s :: xs)) =
        detect_device_type overrides (.str s)) ∧
    (∀ (x : PyVal) (xs : List PyVal), x.isStrB = false →
      detect_device_type overrides (.list (x :: xs)) = "unknown") ∧
    ((∀ p ∈ overrides, p.2 = "server" ∨ p.2 = "workstation" ∨
        p.2 = "network" ∨ p.2 = "unknown") →
      ∀ v : PyVal, detect_device_type overrides v = "server" ∨
        detect_device_type overrides v = "workstation" ∨
        detect_device_type overrides v = "network" ∨
        detect_device_type overrides v = "unknown") := by
  refine ⟨?_, ?_, ?_, ?_, ?_⟩
  · intro v hv
    unfold detect_device_type
    rw [if_pos (by simp [hv])]
  · intro v h1 h2
    unfold detect_device_type
    split
    · rfl
    · rcases v with _ | b | n | s | xs | d <;>
        simp_all [PyVal.isStrB, PyVal.isListB]
  · intro s xs hs
    have ht : (PyVal.str s).truthy = true := by simp [PyVal.truthy, hs]
    unfold detect_device_type
    rw [if_neg (by simp [PyVal.truthy]), if_neg (by simp [ht])]
  · intro x xs hx
    unfold detect_device_type
    rw [if_neg (by simp [PyVal.truthy])]
    rcases x with _ | b | n | s | ys | d <;> simp_all [PyVal.isStrB]
  · intro hcod v
    have core : ∀ s : String, classifyOsString overrides s = "server" ∨
        classifyOsString overrides s = "workstation" ∨
        classifyOsString overrides s = "network" ∨
        classifyOsString overrides s = "unknown" := by
      intro s
      unfold classifyOsString
      simp only []
      rcases hf : overrides.find? (fun e => pyIn e.1 (pyLower s)) with _ | e <;>
        rw [hf]
      case some => exact hcod e (List.mem_of_find?_eq_some hf)
      case none =>
        simp only []
        split
        · exact Or.inl rfl
        · split
          · exact Or.inr (Or.inl rfl)
          · split
            · exact Or.inr (Or.inr (Or.inl rfl))
            · exact Or.inr (Or.inr (Or.inr rfl))
    unfold detect_device_type
    rcases v with _ | b | n | s | xs | d
    · exact Or.inr (Or.inr (Or.inr rfl))
    · split
      · exact Or.inr (Or.inr (Or.inr rfl))
      · exact Or.inr (Or.inr (Or.inr rfl))
    · split
      · exact Or.inr (Or.inr (Or.inr rfl))
      · exact Or.inr (Or.inr (Or.inr rfl))
    · split
      · exact Or.inr (Or.inr (Or.inr rfl))
      · exact core s
    · rcases xs with _ | ⟨x, rest⟩
      · exact Or.inr (Or.inr (Or.inr rfl))
      · split
        · exact Or.inr (Or.inr (Or.inr rfl))
        · rcases x with _ | b | n | s2 | ys | d2
          · exact Or.inr (Or.inr (Or.inr rfl))
          · exact Or.inr (Or.inr (Or.inr rfl))
          · exact Or.inr (Or.inr (Or.inr rfl))
          · exact core s2
          · exact Or.inr (Or.inr (Or.inr rfl))
          · exact Or.inr (Or.inr (Or.inr rfl))
    · split
      · exact Or.inr (Or.inr (Or.inr rfl))
      · exact Or.inr (Or.inr (Or.inr rfl))

/-- **C10 witness.**  The amended totality theorem at a concrete override
table and inputs. -/
theorem detect_device_type_total_witness :
    detect_device_type [("appliance", "network")] PyVal.none = "unknown" ∧
    detect_device_type [("appliance", "network")]
      (.list [.str "Fancy Appliance 9000"]) =
      detect_device_type [("appliance", "network")] (.str "Fancy Appliance 9000") ∧
    (detect_device_type [("appliance", "network")] (.str "Fancy Appliance 9000") =
        "server" ∨
      detect_device_type [("appliance", "network")] (.str "Fancy Appliance 9000") =
        "workstation" ∨
      detect_device_type [("appliance", "network")] (.str "Fancy Appliance 9000") =
        "network" ∨
      detect_device_type [("appliance", "network")] (.str "Fancy Appliance 9000") =
        "unknown") :=
  ⟨(detect_device_type_total [("appliance", "network")]).1 PyVal.none (by decide),
   (detect_device_type_total [("appliance", "network")]).2.2.1
     "Fancy Appliance 9000" [] (by decide),
   (detect_device_type_total [("appliance", "network")]).2.2.2.2
     (by decide) (.str "Fancy Appliance 9000")⟩

/-- Changing only the category field does not change the version-threshold
test (it reads the text fields and the patch flag only). -/
theorem is_version_threshold_set_cat (v : QVuln) (c : Option String) :
    is_version_threshold { v with quick_win_category := c } =
      is_version_threshold v := rfl

/-- **C4.**  Batch quick-win detection gives `version_threshold` priority:
a record passing both the version-threshold test and the
unsupported-product test is assigned `version_threshold`, lands in the
version-threshold bucket, and does not land in the unsupported-product
bucket. -/
theorem quick_win_priority (vulns : List QVuln) (v : QVuln)
    (hmem : v ∈ vulns) (hvt : is_version_threshold v = true)
    (hup : is_unsupported_product v = true) :
    assignCategory v = { v with quick_win_category := some "version_threshold" } ∧
    { v with quick_win_category := some "version_threshold" } ∈
      (detect_quick_wins vulns).version_threshold ∧
    { v with quick_win_category := some "unsupported_product" } ∉
      (detect_quick_wins vulns).unsupported_product := by
  have hassign : assignCategory v =
      { v with quick_win_category := some "version_threshold" } := by
    unfold assignCategory
    rw [if_pos hvt]
  refine ⟨hassign, ?_, ?_⟩
  · unfold detect_quick_wins
    simp only []
    rw [← hassign]
    exact List.mem_map_of_mem _ (List.mem_filter.mpr ⟨hmem, hvt⟩)
  · unfold detect_quick_wins
    simp only []
    intro hcon
    obtain ⟨w, hwmem, hweq⟩ := List.mem_map.mp hcon
    have hwvt : is_version_threshold w = false := by
      have h2 := (List.mem_filter.mp hwmem).2
      simp only [Bool.and_eq_true, Bool.not_eq_true'] at h2
      exact h2.1
    unfold assignCategory at hweq
    rw [if_neg (by simp [hwvt])] at hweq
    by_cases hwu : is_unsupported_product w = true
    · rw [if_pos hwu] at hweq
      rcases w with ⟨wpn, wd, wso, wsy, whp, wsev, wqc⟩
      rcases v with ⟨vpn, vd, vso, vsy, vhp, vsev, vqc⟩
      simp only [QVuln.mk.injEq] at hweq
      obtain ⟨h1, h2, h3, h4, h5, h6, -⟩ := hweq
      exact Bool.false_ne_true (by
        calc false
            = is_version_threshold ⟨wpn, wd, wso, wsy, whp, wsev, wqc⟩ :=
              hwvt.symm
          _ = is_version_threshold ⟨wpn, wd, wso, wsy, whp, wsev, vqc⟩ := rfl
          _ = is_version_threshold ⟨vpn, vd, vso, vsy, vhp, vsev, vqc⟩ := by
              rw [h1, h2, h3, h4, h5, h6]
          _ = true := hvt)
    · rw [if_neg hwu] at hweq
      have := congrArg QVuln.quick_win_category hweq
      simp at this

/-- **C4 witness.**  A record matching both the version-threshold cues
(with a patch available) and an unsupported-product keyword. -/
theorem quick_win_priority_witness :
    assignCategory
        ⟨"PHP < 5.6 Unsupported Version Detection", Option.none, Option.none,
          Option.none, true, "Critical", Option.none⟩ =
      { (⟨"PHP < 5.6 Unsupported Version Detection", Option.none, Option.none,
          Option.none, true, "Critical", Option.none⟩ : QVuln) with
        quick_win_category := some "version_threshold" } ∧
    { (⟨"PHP < 5.6 Unsupported Version Detection", Option.none, Option.none,
        Option.none, true, "Critical", Option.none⟩ : QVuln) with
      quick_win_category := some "version_threshold" } ∈
      (detect_quick_wins
        [⟨"PHP < 5.6 Unsupported Version Detection", Option.none, Option.none,
          Option.none, true, "Critical", Option.none⟩]).version_threshold ∧
    { (⟨"PHP < 5.6 Unsupported Version Detection", Option.none, Option.none,
        Option.none, true, "Critical", Option.none⟩ : QVuln) with
      quick_win_category := some "unsupported_product" } ∉
      (detect_quick_wins
        [⟨"PHP < 5.6 Unsupported Version Detection", Option.none, Option.none,
          Option.none, true, "Critical", Option.none⟩]).unsupported_product :=
  quick_win_priority _ _ (by decide) (by decide) (by decide)

/-- **C9.**  Cache round-trip with freshness gating: after
`set(filters, X)` at time `tset`, a `get(filters)` at time `tget` returns
`X` with its metadata while the age `(tget − tset)/3600` hours is within
`CACHE_MAX_AGE_HOURS`, and returns absent once the age exceeds it — even
though both cache files still exist on disk. -/
theorem cache_roundtrip {Rec FV : Type} [DecidableEq FV]
    (maxAgeHours : ℚ) (fs : CacheFS Rec FV) (tset tget : ℚ)
    (filters : List (String × FV)) (X : List Rec) :
    ((tget - tset) / 3600 ≤ maxAgeHours →
      VulnCache.get maxAgeHours (VulnCache.set fs tset filters X) tget filters =
        some (X, ⟨tset, filters, X.length⟩)) ∧
    ((tget - tset) / 3600 > maxAgeHours →
      VulnCache.get maxAgeHours (VulnCache.set fs tset filters X) tget filters =
        Option.none ∧
      (VulnCache.set fs tset filters X).data (cacheKey filters) = some X ∧
      (VulnCache.set fs tset filters X).meta (cacheKey filters) =
        some ⟨tset, filters, X.length⟩) := by
  constructor
  · intro hfresh
    have hcond : ¬((tget - tset) / 3600 > maxAgeHours) := not_lt.mpr hfresh
    simp [VulnCache.get, VulnCache.set, hcond]
  · intro hstale
    refine ⟨?_, by simp [VulnCache.set], by simp [VulnCache.set]⟩
    simp [VulnCache.get, VulnCache.set, hstale]

/-- **C9 witness.**  The round-trip theorem on a concrete cache: a one-hour
old entry is served, a 100-hour old entry is absent though its files
remain, with a 24-hour max age. -/
theorem cache_roundtrip_witness :
    (VulnCache.get 24
        (VulnCache.set
          (⟨fun _ => Option.none, fun _ => Option.none⟩ : CacheFS Nat String) 0
          [("state", "open")] [7, 9]) 3600 [("state", "open")] =
      some ([7, 9], ⟨0, [("state", "open")], 2⟩)) ∧
    (VulnCache.get 24
        (VulnCache.set
          (⟨fun _ => Option.none, fun _ => Option.none⟩ : CacheFS Nat String) 0
          [("state", "open")] [7, 9]) 360000 [("state", "open")] =
      Option.none ∧
     (VulnCache.set
        (⟨fun _ => Option.none, fun _ => Option.none⟩ : CacheFS Nat String) 0
          [("state", "open")] [7, 9]).data (cacheKey [("state", "open")]) =
       some [7, 9] ∧
     (VulnCache.set
        (⟨fun _ => Option.none, fun _ => Option.none⟩ : CacheFS Nat String) 0
          [("state", "open")] [7, 9]).meta (cacheKey [("state", "open")]) =
       some ⟨0, [("state", "open")], 2⟩) :=
  ⟨(cache_roundtrip 24
      (⟨fun _ => Option.none, fun _ => Option.none⟩ : CacheFS Nat String) 0 3600
      [("state", "open")] [7, 9]).1 (by norm_num),
   (cache_roundtrip 24
      (⟨fun _ => Option.none, fun _ => Option.none⟩ : CacheFS Nat String) 0 360000
      [("state", "open")] [7, 9]).2 (by norm_num)⟩

/-- Total number of records held in a grouped structure. -/
def groupedTotal (g : Grouped) : Nat :=
  (g.map (fun e => (vendorAllVulns e.2).length)).sum

theorem vendorAllVulns_bucketAdd (ps : ProductMap) (p : Option String) (v : GVuln) :
    (vendorAllVulns (bucketAdd ps p v)).length = (vendorAllVulns ps).length + 1 := by
  induction ps with
  | nil => simp [bucketAdd, vendorAllVulns]
  | cons e rest ih =>
      obtain ⟨q, l⟩ := e
      by_cases h : q = p
      · simp [bucketAdd, h, vendorAllVulns]
        omega
      · simp only [bucketAdd, if_neg h, vendorAllVulns, List.map_cons,
          List.flatten_cons, List.length_append] at ih ⊢
        omega

theorem groupedTotal_groupedAdd (g : Grouped) (w : String) (p : Option String)
    (v : GVuln) : groupedTotal (groupedAdd g w p v) = groupedTotal g + 1 := by
  induction g with
  | nil => simp [groupedAdd, groupedTotal, vendorAllVulns]
  | cons e rest ih =>
      obtain ⟨u, ps⟩ := e
      by_cases h : u = w
      · simp only [groupedAdd, if_pos h, groupedTotal, List.map_cons, List.sum_cons]
        rw [vendorAllVulns_bucketAdd]
        omega
      · simp only [groupedAdd, if_neg h, groupedTotal, List.map_cons,
          List.sum_cons] at ih ⊢
        omega

theorem groupedTotal_foldl (vulns : List GVuln) :
    ∀ g : Grouped,
      groupedTotal (vulns.foldl
        (fun g v => groupedAdd g (v.vendor.getD "Other") v.product_family v) g) =
      groupedTotal g + vulns.length := by
  induction vulns with
  | nil => intro g; simp
  | cons v rest ih =>
      intro g
      simp only [List.foldl_cons, ih, groupedTotal_groupedAdd, List.length_cons]
      omega

/-- **C8.**  Hierarchical grouping partitions its input: every record lands
in exactly one vendor→product bucket, so the per-vendor `total_vulns`
counts reported by the vendor statistics sum to the number of input
records. -/
theorem grouping_partitions (vulns : List GVuln) :
    (((group_and_sort vulns).2).map (fun e => e.2.total_vulns)).sum =
      vulns.length := by
  have hstats : ((get_vendor_statistics (group_by_vendor_product vulns)).map
      (fun e => e.2.total_vulns)).sum = groupedTotal (group_by_vendor_product vulns) := by
    simp only [get_vendor_statistics, groupedTotal, List.map_map]
    rfl
  have htot : groupedTotal (group_by_vendor_product vulns) = vulns.length := by
    unfold group_by_vendor_product
    rw [groupedTotal_foldl vulns []]
    simp [groupedTotal]
  simpa [group_and_sort, hstats] using htot

section Stability

variable {α : Type} (r : α → α → Prop) [DecidableRel r] (p : α → Bool)

theorem filter_orderedInsert_neg (x : α) (hx : p x = false) :
    ∀ l : List α, (List.orderedInsert r x l).filter p = l.filter p := by
  intro l
  induction l with
  | nil => simp [List.orderedInsert, hx]
  | cons y ys ih =>
      unfold List.orderedInsert
      by_cases h : r x y
      · rw [if_pos h]
        simp [hx]
      · rw [if_neg h]
        by_cases hy : p y = true
        · simp only [List.filter_cons, hy, if_pos]
          rw [ih]
        · simp only [List.filter_cons, Bool.not_eq_true] at hy
          simp only [List.filter_cons, hy]
          rw [ih]

theorem filter_orderedInsert_pos (x : α) (hx : p x = true)
    (hall : ∀ y, p y = true → r x y) :
    ∀ l : List α, (List.orderedInsert r x l).filter p = x :: l.filter p := by
  intro l
  induction l with
  | nil => simp [List.orderedInsert, hx]
  | cons y ys ih =>
      unfold List.orderedInsert
      by_cases h : r x y
      · rw [if_pos h]
        simp [hx]
      · rw [if_neg h]
        have hy : p y = false := by
          by_contra hcon
          exact h (hall y (Bool.not_eq_false (p y) ▸ hcon))
        simp [List.filter_cons, hy, ih]

/-- A stable sort leaves any key-equivalence class of elements in its
original order; `insertionSort` realizes Python's stable `sorted`. -/
theorem filter_insertionSort
    (hkey : ∀ a b, p a = true → p b = true → r a b) :
    ∀ l : List α, (List.insertionSort r l).filter p = l.filter p := by
  intro l
  induction l with
  | nil => rfl
  | cons a l ih =>
      unfold List.insertionSort
      by_cases hpa : p a = true
      · rw [filter_orderedInsert_pos r p a hpa (fun y hy => hkey a y hpa hy), ih]
        simp [hpa]
      · have hpa2 : p a = false := Bool.not_eq_true (p a) ▸ hpa
        rw [filter_orderedInsert_neg r p a hpa2, ih]
        simp [hpa2]

end Stability

theorem groupedAdd_keys (g : Grouped) (w : String) (p : Option String) (v : GVuln) :
    (groupedAdd g w p v).map Prod.fst =
      if w ∈ g.map Prod.fst then g.map Prod.fst else g.map Prod.fst ++ [w] := by
  induction g with
  | nil => simp [groupedAdd]
  | cons e rest ih =>
      obtain ⟨u, ps⟩ := e
      by_cases h : u = w
      · subst h
        simp [groupedAdd]
      · simp only [groupedAdd, if_neg h, List.map_cons, ih]
        by_cases hmem : w ∈ rest.map Prod.fst
        · rw [if_pos hmem, if_pos (by simp [hmem])]
        · rw [if_neg hmem, if_neg (by simp [hmem, Ne.symm h]), List.cons_append]

theorem group_keys_nodup (vulns : List GVuln) :
    ((group_by_vendor_product vulns).map Prod.fst).Nodup := by
  suffices h : ∀ g : Grouped, (g.map Prod.fst).Nodup →
      ((vulns.foldl
        (fun g v => groupedAdd g (v.vendor.getD "Other") v.product_family v)
        g).map Prod.fst).Nodup by
    exact h [] (by simp)
  induction vulns with
  | nil => intro g hg; simpa using hg
  | cons v rest ih =>
      intro g hg
      refine ih _ ?_
      rw [groupedAdd_keys]
      by_cases hmem : (v.vendor.getD "Other") ∈ g.map Prod.fst
      · rwa [if_pos hmem]
      · rw [if_neg hmem]
        simp [List.nodup_append, hg, hmem]

/-- The per-entry score stored by `sort_vendors_by_severity`. -/
def scoreEntry (e : String × ProductMap) : ScoredVendor :=
  (e.1, e.2, calculate_vendor_severity_score (vendorAllVulns e.2))

theorem other_last :
    ∀ l : List ScoredVendor, l.Pairwise vendorOrder →
      (l.map (fun t => t.1)).Nodup → "Other" ∈ l.map (fun t => t.1) →
      (l.map (fun t => t.1)).getLast? = some "Other" := by
  intro l
  induction l with
  | nil => intro _ _ hmem; simp at hmem
  | cons t rest ih =>
      intro hpair hnd hmem
      have ht : ∀ u ∈ rest, vendorOrder t u :=
        fun u hu => List.rel_of_pairwise_cons hpair hu
      have hn1 : t.1 ∉ rest.map (fun t => t.1) := by
        simp only [List.map_cons, List.nodup_cons] at hnd
        exact hnd.1
      by_cases hother : t.1 = "Other"
      · have hrest : rest = [] := by
          cases rest with
          | nil => rfl
          | cons u us =>
              exfalso
              have hvo := ht u (by simp)
              unfold vendorOrder sortKeyLe at hvo
              rw [hother] at hvo
              simp only [decide_True, Prod.fst, Prod.snd] at hvo
              rcases hvo with ⟨h1, -⟩ | ⟨h1, -⟩
              · simp at h1
              · have hu : u.1 = "Other" := by
                  by_contra hcon
                  rw [eq_comm, decide_eq_true_eq] at h1
                  exact hcon h1
                exact hn1 (by
                  rw [hother, ← hu]
                  exact List.mem_map_of_mem _ (by simp))
        subst hrest
        simp [hother]
      · simp only [List.map_cons, List.mem_cons] at hmem
        rcases hmem with h | h
        · exact absurd h.symm hother
        · have hne : rest ≠ [] := by
            intro hcon
            rw [hcon] at h
            simp at h
          obtain ⟨u, us, rfl⟩ := List.exists_cons_of_ne_nil hne
          rw [List.map_cons, List.map_cons, List.getLast?_cons_cons,
            ← List.map_cons]
          exact ih hpair.of_cons (by
            simp only [List.map_cons, List.nodup_cons] at hnd ⊢
            exact hnd.2) h

/-- **C7.**  In the vendor list produced by `group_and_sort`: `"Other"` is
the last element whenever present, regardless of its score; the remaining
vendors appear in descending order of severity score; and equal-scored
non-`"Other"` vendors keep their original (grouping insertion) order —
Python's `sorted` is stable. -/
theorem vendor_sort_properties (vulns : List GVuln) :
    ("Other" ∈ (group_and_sort vulns).1.map Prod.fst →
      ((group_and_sort vulns).1.map Prod.fst).getLast? = some "Other") ∧
    (group_and_sort vulns).1.Pairwise (fun a b =>
      a.1 ≠ "Other" → b.1 ≠ "Other" →
        calculate_vendor_severity_score (vendorAllVulns b.2) ≤
          calculate_vendor_severity_score (vendorAllVulns a.2)) ∧
    (∀ sc : Int,
      (group_and_sort vulns).1.filter (fun e =>
        decide (e.1 ≠ "Other") &&
          decide (calculate_vendor_severity_score (vendorAllVulns e.2) = sc)) =
      (group_by_vendor_product vulns).filter (fun e =>
        decide (e.1 ≠ "Other") &&
          decide (calculate_vendor_severity_score (vendorAllVulns e.2) = sc))) := by
  have hout : (group_and_sort vulns).1 =
      (List.insertionSort vendorOrder
        ((group_by_vendor_product vulns).map scoreEntry)).map
        (fun t => (t.1, t.2.1)) := rfl
  have hsorted := List.sorted_insertionSort vendorOrder
    ((group_by_vendor_product vulns).map scoreEntry)
  have hperm := List.perm_insertionSort vendorOrder
    ((group_by_vendor_product vulns).map scoreEntry)
  have hscore : ∀ t ∈ List.insertionSort vendorOrder
      ((group_by_vendor_product vulns).map scoreEntry),
      t.2.2 = calculate_vendor_severity_score (vendorAllVulns t.2.1) := by
    intro t ht
    have : t ∈ (group_by_vendor_product vulns).map scoreEntry :=
      hperm.mem_iff.mp ht
    obtain ⟨e, -, rfl⟩ := List.mem_map.mp this
    rfl
  refine ⟨?_, ?_, ?_⟩
  · intro hmem
    rw [hout] at hmem ⊢
    rw [List.map_map] at hmem ⊢
    have hnd : ((List.insertionSort vendorOrder
        ((group_by_vendor_product vulns).map scoreEntry)).map
          (fun t => t.1)).Nodup := by
      refine (List.Perm.nodup_iff (List.Perm.map _ hperm)).mpr ?_
      rw [List.map_map]
      have : ((group_by_vendor_product vulns).map scoreEntry).map (fun t => t.1) =
          (group_by_vendor_product vulns).map Prod.fst := by
        rw [List.map_map]; rfl
      rw [show ((fun t => t.1) ∘ scoreEntry : String × ProductMap → String) =
        Prod.fst from rfl]
      exact group_keys_nodup vulns
    exact other_last _ hsorted hnd hmem
  · rw [hout]
    refine (List.pairwise_map).mpr ?_
    refine List.Pairwise.imp_of_mem ?_ hsorted
    intro a b ha hb hvo hna hnb
    unfold vendorOrder sortKeyLe at hvo
    rcases hvo with ⟨-, h2⟩ | ⟨-, h2⟩
    · exact absurd (of_decide_eq_true h2) hnb
    · rw [← hscore a ha, ← hscore b hb]
      omega
  · intro sc
    have hkey : ∀ a b : ScoredVendor,
        (decide (a.1 ≠ "Other") && decide (a.2.2 = sc)) = true →
        (decide (b.1 ≠ "Other") && decide (b.2.2 = sc)) = true →
        vendorOrder a b := by
      intro a b hpa hpb
      simp only [Bool.and_eq_true, decide_eq_true_eq] at hpa hpb
      unfold vendorOrder sortKeyLe
      right
      constructor
      · simp [hpa.1, hpb.1]
      · omega
    have hP : ∀ t ∈ (group_by_vendor_product vulns).map scoreEntry,
        t.2.2 = calculate_vendor_severity_score (vendorAllVulns t.2.1) := by
      intro t ht
      obtain ⟨e, -, rfl⟩ := List.mem_map.mp ht
      rfl
    have hcongr : ∀ l : List ScoredVendor,
        (∀ t ∈ l, t.2.2 = calculate_vendor_severity_score (vendorAllVulns t.2.1)) →
        l.filter ((fun e =>
            decide (e.1 ≠ "Other") &&
              decide (calculate_vendor_severity_score (vendorAllVulns e.2) = sc)) ∘
          (fun t => (t.1, t.2.1))) =
        l.filter (fun t => decide (t.1 ≠ "Other") && decide (t.2.2 = sc)) := by
      intro l hl
      refine List.filter_congr ?_
      intro t ht
      simp only [Function.comp]
      rw [hl t ht]
    rw [hout, List.filter_map, hcongr _ hscore,
      filter_insertionSort vendorOrder
        (fun t => decide (t.1 ≠ "Other") && decide (t.2.2 = sc)) hkey
        ((group_by_vendor_product vulns).map scoreEntry),
      (hcongr _ hP).symm, ← List.filter_map, List.map_map,
      show ((fun t : ScoredVendor => (t.1, t.2.1)) ∘ scoreEntry) = id from rfl,
      List.map_id]

/-- **C7 witness.**  The sorting theorem applied to a concrete record list
in which `"Other"` is inserted first yet must sort last. -/
theorem vendor_sort_properties_witness :
    ((group_and_sort
        [⟨some "Other", Option.none, "low", Option.none⟩,
         ⟨some "Apache", Option.none, "critical", some "a1"⟩]).1.map
      Prod.fst).getLast? = some "Other" :=
  (vendor_sort_properties
    [⟨some "Other", Option.none, "low", Option.none⟩,
     ⟨some "Apache", Option.none, "critical", some "a1"⟩]).1 (by decide)

/-- A rule match never carries `low` confidence: `low` is reserved for the
heuristic fallback. -/
theorem matchRule_confidence (compiles : String → Bool)
    (rsearch : String → String → Bool) (text : String)
    (r : VendorProductRule) (vp : VendorProduct)
    (h : matchRule compiles rsearch text r = some vp) :
    vp.confidence = .high ∨ vp.confidence = .medium := by
  unfold matchRule at h
  split_ifs at h <;> cases h <;> simp

/-- In a priority-sorted rule list, the first matching rule (the one
`findSome?` selects) has priority at least that of every matching rule. -/
theorem findSome_winner {α β : Type} (f : α → Option β) (prio : α → Int) :
    ∀ l : List α, l.Pairwise (fun a b => prio b ≤ prio a) →
      ∀ r1 ∈ l, f r1 ≠ Option.none →
      ∃ r ∈ l, prio r1 ≤ prio r ∧ ∃ vp, f r = some vp ∧ l.findSome? f = some vp := by
  intro l
  induction l with
  | nil => intro _ r1 h; simp at h
  | cons x xs ih =>
      intro hpair r1 hr1 hfr1
      rcases hfx : f x with _ | vp
      · have hr1x : r1 ≠ x := by
          intro hcon
          rw [hcon, hfx] at hfr1
          exact hfr1 rfl
        have hr1xs : r1 ∈ xs := by
          rcases List.mem_cons.mp hr1 with h | h
          · exact absurd h hr1x
          · exact h
        obtain ⟨r, hrmem, hprio, vp, hfr, hfs⟩ :=
          ih hpair.of_cons r1 hr1xs hfr1
        exact ⟨r, List.mem_cons_of_mem x hrmem, hprio, vp, hfr,
          by simp [List.findSome?_cons, hfx, hfs]⟩
      · refine ⟨x, List.mem_cons_self x xs, ?_, vp, hfx,
          by simp [List.findSome?_cons, hfx]⟩
        rcases List.mem_cons.mp hr1 with h | h
        · exact le_of_eq (by rw [h])
        · exact List.rel_of_pairwise_cons hpair h

/-- When some branch guard fires, the heuristic cascade does not answer the
fallback (every branch carries a vendor other than `"Other"`). -/
theorem heuristicDetection_ne_other (pn text : String)
    (hg : heuristicGuards text = true) :
    heuristicDetection pn text ≠ ⟨"Other", Option.none, .low⟩ := by
  intro h
  unfold heuristicDetection at h
  by_cases g1 : (msKeywords.any fun k => pyIn k text) = true
  · rw [if_pos g1] at h
    split_ifs at h <;> exact absurd h (by decide)
  · rw [if_neg g1] at h
    by_cases g2 : pyIn "ubuntu" text = true
    · rw [if_pos g2] at h
      exact absurd h (by decide)
    · rw [if_neg g2] at h
      by_cases g3 : pyIn "debian" text = true
      · rw [if_pos g3] at h
        exact absurd h (by decide)
      · rw [if_neg g3] at h
        by_cases g4 : (pyIn "red hat" text || pyIn "rhel" text) = true
        · rw [if_pos g4] at h
          exact absurd h (by decide)
        · rw [if_neg g4] at h
          by_cases g5 : pyIn "centos" text = true
          · rw [if_pos g5] at h
            exact absurd h (by decide)
          · rw [if_neg g5] at h
            by_cases g6 : pyIn "fedora" text = true
            · rw [if_pos g6] at h
              exact absurd h (by decide)
            · rw [if_neg g6] at h
              by_cases g7 : (pyIn "suse" text || pyIn "sles" text) = true
              · rw [if_pos g7] at h
                exact absurd h (by decide)
              · rw [if_neg g7] at h
                by_cases g8 : pyIn "apache " text = true
                · rw [if_pos g8] at h
                  split_ifs at h <;> exact absurd h (by decide)
                · rw [if_neg g8] at h
                  by_cases g9 : pyIn "oracle" text = true
                  · rw [if_pos g9] at h
                    split_ifs at h <;> exact absurd h (by decide)
                  · rw [if_neg g9] at h
                    by_cases g10 : pyIn "vmware" text = true
                    · rw [if_pos g10] at h
                      split_ifs at h <;> exact absurd h (by decide)
                    · rw [if_neg g10] at h
                      by_cases g11 : pyIn "cisco" text = true
                      · rw [if_pos g11] at h
                        split_ifs at h <;> exact absurd h (by decide)
                      · rw [if_neg g11] at h
                        by_cases g12 : pyIn "php" text = true
                        · rw [if_pos g12] at h
                          exact absurd h (by decide)
                        · rw [if_neg g12] at h
                          by_cases g13 : pyIn "python" text = true
                          · rw [if_pos g13] at h
                            exact absurd h (by decide)
                          · rw [if_neg g13] at h
                            by_cases g14 : (pyIn "node.js" text || pyIn "nodejs" text) = true
                            · rw [if_pos g14] at h
                              exact absurd h (by decide)
                            · rw [if_neg g14] at h
                              by_cases g15 : pyIn "docker" text = true
                              · rw [if_pos g15] at h
                                exact absurd h (by decide)
                              · rw [if_neg g15] at h
                                by_cases g16 : (pyIn "kubernetes" text || pyIn "k8s" text) = true
                                · rw [if_pos g16] at h
                                  exact absurd h (by decide)
                                · rw [if_neg g16] at h
                                  by_cases g17 : pyIn "nginx" text = true
                                  · rw [if_pos g17] at h
                                    exact absurd h (by decide)
                                  · rw [if_neg g17] at h
                                    by_cases g18 : (pyIn "postgresql" text || pyIn "postgres" text) = true
                                    · rw [if_pos g18] at h
                                      exact absurd h (by decide)
                                    · rw [if_neg g18] at h
                                      by_cases g19 : pyIn "mysql" text = true
                                      · rw [if_pos g19] at h
                                        exact absurd h (by decide)
                                      · rw [if_neg g19] at h
                                        by_cases g20 : pyIn "mariadb" text = true
                                        · rw [if_pos g20] at h
                                          exact absurd h (by decide)
                                        · rw [if_neg g20] at h
                                          by_cases g21 : (pyIn "mongodb" text || pyIn "mongo" text) = true
                                          · rw [if_pos g21] at h
                                            exact absurd h (by decide)
                                          · rw [if_neg g21] at h
                                            by_cases g22 : pyIn "redis" text = true
                                            · rw [if_pos g22] at h
                                              exact absurd h (by decide)
                                            · rw [if_neg g22] at h
                                              by_cases g23 : pyIn "openssl" text = true
                                              · rw [if_pos g23] at h
                                                exact absurd h (by decide)
                                              · rw [if_neg g23] at h
                                                by_cases g24 : pyIn "libressl" text = true
                                                · rw [if_pos g24] at h
                                                  exact absurd h (by decide)
                                                · rw [if_neg g24] at h
                                                  simp [heuristicGuards, g1, g2, g3, g4, g5, g6, g7, g8, g9, g10, g11, g12, g13, g14, g15, g16, g17, g18, g19, g20, g21, g22, g23, g24] at hg


/-- When no branch guard fires, the heuristic cascade answers the fallback. -/
theorem heuristicDetection_of_no_guard (pn text : String)
    (hg : heuristicGuards text = false) :
    heuristicDetection pn text = ⟨"Other", Option.none, .low⟩ := by
  unfold heuristicGuards at hg
  simp only [Bool.or_eq_false_iff] at hg
  simp [heuristicDetection, hg]

/-- The heuristic cascade answers the `Other/None/low` fallback exactly when
none of its branch guards fires. -/
theorem heuristicDetection_other_iff (pn text : String) :
    heuristicDetection pn text = ⟨"Other", Option.none, .low⟩ ↔
      heuristicGuards text = false := by
  constructor
  · intro h
    by_contra hg
    rw [Bool.not_eq_false] at hg
    exact heuristicDetection_ne_other pn text hg h
  · exact heuristicDetection_of_no_guard pn text

/-- **C6.**  Vendor detection evaluates the loaded (enabled,
priority-descending) rules in order against the lower-cased concatenation
of plugin name, description and solution.  (i) A rule match carries the
rule's vendor and product family, `high` confidence exactly when the regex
branch fired, and `medium` exactly when only the keyword branch fired;
(ii) the winning rule's priority is at least that of every matching rule,
so a regex-matching rule always outranks a keyword-matching rule of lower
priority; (iii) the fallback `{Other, None, low}` is returned exactly when
no rule and no built-in heuristic matches. -/
theorem vendor_rule_evaluation (compiles : String → Bool)
    (rsearch : String → String → Bool) (rules : List VendorProductRule)
    (v : VVuln) (hsorted : PrioSorted rules) :
    (∀ r vp, matchRule compiles rsearch (combinedText v) r = some vp →
      vp.vendor = r.vendor_name ∧ vp.product_family = r.product_family ∧
      (vp.confidence = .high ↔
        regexHit compiles rsearch (combinedText v) r = true) ∧
      (vp.confidence = .medium ↔
        (regexHit compiles rsearch (combinedText v) r = false ∧
          keywordHit (combinedText v) r = true))) ∧
    (∀ r1 ∈ rules, matchRule compiles rsearch (combinedText v) r1 ≠ Option.none →
      ∃ r ∈ rules, r1.priority ≤ r.priority ∧
        matchRule compiles rsearch (combinedText v) r =
          some (detect compiles rsearch rules v)) ∧
    (detect compiles rsearch rules v = ⟨"Other", Option.none, .low⟩ ↔
      ((∀ r ∈ rules, matchRule compiles rsearch (combinedText v) r = Option.none) ∧
        heuristicGuards (combinedText v) = false)) := by
  refine ⟨?_, ?_, ?_⟩
  · intro r vp h
    unfold matchRule at h
    by_cases h1 : regexHit compiles rsearch (combinedText v) r = true
    · rw [if_pos h1] at h
      cases h
      simp [h1]
    · rw [if_neg h1] at h
      by_cases h2 : keywordHit (combinedText v) r = true
      · rw [if_pos h2] at h
        cases h
        simp only [Bool.not_eq_true] at h1
        simp [h1, h2]
      · rw [if_neg h2] at h
        cases h
  · intro r1 hr1 hne
    obtain ⟨r, hrmem, hprio, vp, hfr, hfs⟩ :=
      findSome_winner (matchRule compiles rsearch (combinedText v))
        VendorProductRule.priority rules hsorted r1 hr1 hne
    refine ⟨r, hrmem, hprio, ?_⟩
    rw [hfr]
    unfold detect
    simp only []
    rw [hfs]
  · rcases hfs : rules.findSome? (matchRule compiles rsearch (combinedText v))
      with _ | vp
    · have hall : ∀ r ∈ rules,
          matchRule compiles rsearch (combinedText v) r = Option.none :=
        List.findSome?_eq_none_iff.mp hfs
      have hdet : detect compiles rsearch rules v =
          heuristicDetection (pyLower v.plugin_name) (combinedText v) := by
        unfold detect
        simp only []
        rw [hfs]
      rw [hdet, heuristicDetection_other_iff]
      exact ⟨fun h => ⟨hall, h⟩, fun h => h.2⟩
    · have hdet : detect compiles rsearch rules v = vp := by
        unfold detect
        simp only []
        rw [hfs]
      obtain ⟨r, hrmem, hfr⟩ := List.exists_of_findSome?_eq_some hfs
      constructor
      · intro hother
        rw [hdet] at hother
        rcases matchRule_confidence compiles rsearch (combinedText v) r vp hfr
          with hc | hc <;> rw [hother] at hc <;> simp at hc
      · rintro ⟨hall, -⟩
        rw [hall r hrmem] at hfr
        cases hfr

/-- **C6 witness.**  The rule-evaluation theorem at a concrete sorted rule
list, concrete regex engine, and a record matching no rule and no
heuristic: the fallback is returned. -/
theorem vendor_rule_evaluation_witness :
    detect (fun _ => true) (fun p t => pyIn (pyLower p) t)
      [⟨"Adobe", some "Flash", Option.none, some "adobe flash", 90, true⟩]
      ⟨"Some Unrelated Plugin", "", ""⟩ = ⟨"Other", Option.none, .low⟩ :=
  ((vendor_rule_evaluation (fun _ => true) (fun p t => pyIn (pyLower p) t)
      [⟨"Adobe", some "Flash", Option.none, some "adobe flash", 90, true⟩]
      ⟨"Some Unrelated Plugin", "", ""⟩ (by unfold PrioSorted; decide)).2.2).mpr
    ⟨by decide, by decide⟩

end TenableReport
